import Mathlib

/-!
Shallow embedding of the `amq-protocol` repository:
`src/types/src/types.rs` (the `AMQPType` wire-type enumeration with its
tag-character mapping, and the primitive type aliases) and
`src/codegen/src/specs.rs` (the protocol-specification records and the
`AMQProtocolDefinition::load` entry point).
-/

namespace AMQ

/-- Enumeration referencing all the available AMQP types
(`src/types/src/types.rs`, `enum AMQPType`). -/
inductive AMQPType where
  | Boolean
  | ShortShortInt
  | ShortShortUInt
  | ShortInt
  | ShortUInt
  | LongInt
  | LongUInt
  | LongLongInt
  | LongLongUInt
  | Float
  | Double
  | DecimalValue
  | ShortString
  | LongString
  | FieldArray
  | Timestamp
  | FieldTable
  | ByteArray
  | Void
  deriving DecidableEq, Fintype, Repr

namespace AMQPType

/-- Embedding of `AMQPType::from_id` (`src/types/src/types.rs`): the
AMQPType corresponding to the given id character, following the RabbitMQ
implementation rather than the formal specification. -/
def from_id (id : Char) : Option AMQPType :=
  match id with
  | 't' => some AMQPType.Boolean
  | 'b' => some AMQPType.ShortShortInt
  | 'B' => some AMQPType.ShortShortUInt
  | 's'
  | 'U' => some AMQPType.ShortInt
  | 'u' => some AMQPType.ShortUInt
  | 'I' => some AMQPType.LongInt
  | 'i' => some AMQPType.LongUInt
  | 'L'
  | 'l' => some AMQPType.LongLongInt
  | 'f' => some AMQPType.Float
  | 'd' => some AMQPType.Double
  | 'D' => some AMQPType.DecimalValue
  | 'S' => some AMQPType.LongString
  | 'A' => some AMQPType.FieldArray
  | 'T' => some AMQPType.Timestamp
  | 'F' => some AMQPType.FieldTable
  | 'x' => some AMQPType.ByteArray
  | 'V' => some AMQPType.Void
  | _   => none

/-- Embedding of `AMQPType::get_id` (`src/types/src/types.rs`): the id
character of an AMQPType, with `'_'` as the ShortString sentinel and both
LongLongInt and LongLongUInt mapped to `'l'`. -/
def get_id : AMQPType → Char
  | AMQPType.Boolean        => 't'
  | AMQPType.ShortShortInt  => 'b'
  | AMQPType.ShortShortUInt => 'B'
  | AMQPType.ShortInt       => 's'
  | AMQPType.ShortUInt      => 'u'
  | AMQPType.LongInt        => 'I'
  | AMQPType.LongUInt       => 'i'
  | AMQPType.LongLongInt
  | AMQPType.LongLongUInt   => 'l'
  | AMQPType.Float          => 'f'
  | AMQPType.Double         => 'd'
  | AMQPType.DecimalValue   => 'D'
  | AMQPType.ShortString    => '_'
  | AMQPType.LongString     => 'S'
  | AMQPType.FieldArray     => 'A'
  | AMQPType.Timestamp      => 'T'
  | AMQPType.FieldTable     => 'F'
  | AMQPType.ByteArray      => 'x'
  | AMQPType.Void           => 'V'

end AMQPType

/-- The documented tag-to-type mapping table, written from the spec's own
table (section 4.1) for comparison with `from_id`:
`t→Boolean, b→ShortShortInt, B→ShortShortUInt, {s,U}→ShortInt, u→ShortUInt,
I→LongInt, i→LongUInt, {L,l}→LongLongInt, f→Float, d→Double, D→DecimalValue,
S→LongString, A→FieldArray, T→Timestamp, F→FieldTable, x→ByteArray, V→Void`. -/
def specTable : List (Char × AMQPType) :=
  [ ('t', AMQPType.Boolean)
  , ('b', AMQPType.ShortShortInt)
  , ('B', AMQPType.ShortShortUInt)
  , ('s', AMQPType.ShortInt)
  , ('U', AMQPType.ShortInt)
  , ('u', AMQPType.ShortUInt)
  , ('I', AMQPType.LongInt)
  , ('i', AMQPType.LongUInt)
  , ('L', AMQPType.LongLongInt)
  , ('l', AMQPType.LongLongInt)
  , ('f', AMQPType.Float)
  , ('d', AMQPType.Double)
  , ('D', AMQPType.DecimalValue)
  , ('S', AMQPType.LongString)
  , ('A', AMQPType.FieldArray)
  , ('T', AMQPType.Timestamp)
  , ('F', AMQPType.FieldTable)
  , ('x', AMQPType.ByteArray)
  , ('V', AMQPType.Void) ]

/-- Lookup in the documented table, following the spec's words: the first
entry whose tag equals the character, no match giving none. -/
def specLookup (c : Char) : Option AMQPType :=
  (specTable.find? (fun p => p.1 == c)).map (fun p => p.2)

/-- The characters appearing as tags in the documented table. -/
def specTableChars : List Char := specTable.map (fun p => p.1)

/-- Primitive alias (`pub type Boolean = bool`). -/
abbrev Boolean := Bool

/-- Primitive alias (`pub type ShortShortInt = i8`): 8-bit signed. -/
abbrev ShortShortInt := { n : Int // -(2 ^ 7) ≤ n ∧ n < 2 ^ 7 }

/-- Primitive alias (`pub type ShortShortUInt = u8`): 8-bit unsigned. -/
abbrev ShortShortUInt := Fin (2 ^ 8)

/-- Primitive alias (`pub type ShortInt = i16`): 16-bit signed. -/
abbrev ShortInt := { n : Int // -(2 ^ 15) ≤ n ∧ n < 2 ^ 15 }

/-- Primitive alias (`pub type ShortUInt = u16`): 16-bit unsigned. -/
abbrev ShortUInt := Fin (2 ^ 16)

/-- Primitive alias (`pub type LongInt = i32`): 32-bit signed. -/
abbrev LongInt := { n : Int // -(2 ^ 31) ≤ n ∧ n < 2 ^ 31 }

/-- Primitive alias (`pub type LongUInt = u32`): 32-bit unsigned. -/
abbrev LongUInt := Fin (2 ^ 32)

/-- Primitive alias (`pub type LongLongInt = i64`): 64-bit signed. -/
abbrev LongLongInt := { n : Int // -(2 ^ 63) ≤ n ∧ n < 2 ^ 63 }

/-- Primitive alias (`pub type LongLongUInt = u64`): 64-bit unsigned. -/
abbrev LongLongUInt := Fin (2 ^ 64)

/-- Primitive alias (`pub type ShortString = String`). -/
abbrev ShortString := String

/-- Primitive alias (`pub type LongString = String`). -/
abbrev LongString := String

/-- Primitive alias (`pub type Timestamp = LongLongUInt`), i.e. u64. -/
abbrev Timestamp := LongLongUInt

/-- Primitive alias (`pub type ByteArray = Vec<u8>`). -/
abbrev ByteArray := List (Fin (2 ^ 8))

/-- Primitive alias (`pub type Void = ()`). -/
abbrev Void := Unit

/-- Modelled from the spec: `AMQPValue` is defined in `src/types/src/value.rs`,
which is not among the provided source files. The spec describes it as a tagged
value, one alternative per primitive wire type, with a FieldArray being a
sequence of tagged values and a FieldTable an ordered-key mapping from name to
tagged value. Numeric payloads are modelled as unbounded integers since the
missing file fixes their exact representation. -/
inductive AMQPValue where
  | Boolean (b : Bool)
  | ShortShortInt (n : Int)
  | ShortShortUInt (n : Nat)
  | ShortInt (n : Int)
  | ShortUInt (n : Nat)
  | LongInt (n : Int)
  | LongUInt (n : Nat)
  | LongLongInt (n : Int)
  | LongLongUInt (n : Nat)
  | Float (bits : Nat)
  | Double (bits : Nat)
  | DecimalValue (scale : Nat) (value : Nat)
  | ShortString (s : String)
  | LongString (s : String)
  | FieldArray (vs : List AMQPValue)
  | Timestamp (n : Nat)
  | FieldTable (m : List (String × AMQPValue))
  | ByteArray (bs : List Nat)
  | Void

/-- Primitive alias (`pub type FieldArray = Vec<AMQPValue>`). -/
abbrev FieldArray := List AMQPValue

/-- Primitive alias (`pub type FieldTable = BTreeMap<ShortString, AMQPValue>`),
modelled as an ordered association list. -/
abbrev FieldTable := List (ShortString × AMQPValue)

/-- A Decimal value composed of a scale and a value
(`src/types/src/types.rs`, `struct DecimalValue`). -/
structure DecimalValue where
  scale : ShortShortUInt
  value : LongUInt

/-- Modelled from the spec: the metadata override input is a structured
document (`serde_json::Value`, an external library type): null, boolean,
number, string, array, or object (an ordered list of named fields). -/
inductive Value where
  | null
  | bool (b : Bool)
  | num (n : Int)
  | str (s : String)
  | arr (vs : List Value)
  | obj (fields : List (String × Value))

namespace Value

/-- Modelled from the spec: field access on a structured document — the value
of the named field of an object, null when the field or the object shape is
absent (the metadata shape is "a mapping from class name to a mapping from
method name to arbitrary override fields"). -/
def objGet (v : Value) (key : String) : Value :=
  match v with
  | .obj fields => ((fields.find? (fun p => p.1 == key)).map (fun p => p.2)).getD .null
  | _ => .null

/-- Modelled from the spec: the override fields are "merged additively and
non-destructively" into a record's metadata slot — existing fields are kept,
override fields with fresh names are appended, a null override changes
nothing. -/
def mergeInto (base override : Value) : Value :=
  match base, override with
  | .obj bs, .obj os =>
      .obj (bs ++ os.filter (fun q => (bs.find? (fun p => p.1 == q.1)).isNone))
  | b, .null => b
  | .null, o => o
  | b, _ => b

/-- Modelled from serde_json: `Value::default()` is `Value::Null`
(used by `metadata.unwrap_or_default()` in `load`). -/
def default : Value := Value.null

end Value

/-- A constant as defined in the AMQP specification
(`src/codegen/src/specs.rs`, `struct AMQPConstant`). -/
structure AMQPConstant where
  name : ShortString
  value : ShortUInt
  amqp_type : AMQPType

/-- A property as defined in the AMQP specification
(`src/codegen/src/specs.rs`, `struct AMQPProperty`). -/
structure AMQPProperty where
  amqp_type : AMQPType
  name : ShortString

/-- An argument holding flags as defined in the AMQP specification
(`src/codegen/src/specs.rs`, `struct AMQPFlagArgument`). -/
structure AMQPFlagArgument where
  name : ShortString
  default_value : Boolean

/-- An argument holding a value as defined in the AMQP specification
(`src/codegen/src/specs.rs`, `struct AMQPValueArgument`). -/
structure AMQPValueArgument where
  amqp_type : AMQPType
  name : ShortString
  default_value : Option AMQPValue
  domain : Option ShortString
  force_default : Bool

/-- An argument as defined in the AMQP specification
(`src/codegen/src/specs.rs`, `enum AMQPArgument`). -/
inductive AMQPArgument where
  | Value (v : AMQPValueArgument)
  | Flags (fs : List AMQPFlagArgument)

/-- A method as defined in the AMQP specification
(`src/codegen/src/specs.rs`, `struct AMQPMethod`). -/
structure AMQPMethod where
  id : ShortUInt
  arguments : List AMQPArgument
  name : ShortString
  synchronous : Boolean
  metadata : Value
  is_reply : Bool

/-- A class as defined in the AMQP specification
(`src/codegen/src/specs.rs`, `struct AMQPClass`). -/
structure AMQPClass where
  id : ShortUInt
  methods : List AMQPMethod
  name : ShortString
  properties : List AMQPProperty
  metadata : Value

/-- Structure holding the definition of the protocol
(`src/codegen/src/specs.rs`, `struct AMQProtocolDefinition`); the domains
mapping (`BTreeMap<ShortString, AMQPType>`) is modelled as an ordered
association list. -/
structure AMQProtocolDefinition where
  name : ShortString
  major_version : ShortShortUInt
  minor_version : ShortShortUInt
  revision : ShortShortUInt
  port : LongUInt
  copyright : LongString
  domains : List (ShortString × AMQPType)
  constants : List AMQPConstant
  soft_errors : List AMQPConstant
  hard_errors : List AMQPConstant
  classes : List AMQPClass

/-- Modelled from the spec: the per-method half of `into_specs`
(`src/codegen/src/internal.rs` is not among the provided source files).
Per the spec, the override fields of the matching method record are merged
into the method's metadata slot, "without altering protocol-semantic fields
(ids, argument lists, types)". -/
def mergeMethod (classOverrides : Value) (m : AMQPMethod) : AMQPMethod :=
  { m with metadata := m.metadata.mergeInto (classOverrides.objGet m.name) }

/-- Modelled from the spec: the per-class half of `into_specs` — the metadata
document maps the class name to a mapping from method name to override
fields; the class-level fields merge into the class metadata slot and each
method's overrides into that method's metadata slot, leaving all other
fields unchanged. -/
def mergeClass (metadata : Value) (c : AMQPClass) : AMQPClass :=
  { c with
    metadata := c.metadata.mergeInto (metadata.objGet c.name)
    methods := c.methods.map (mergeMethod (metadata.objGet c.name)) }

/-- Modelled from the spec: `_AMQProtocolDefinition::into_specs`
(`src/codegen/src/internal.rs` is not among the provided source files) —
"merges the caller-supplied metadata document ... into each class and method
record, attaching arbitrary generator hints ... without altering
protocol-semantic fields". -/
def into_specs (raw : AMQProtocolDefinition) (metadata : Value) : AMQProtocolDefinition :=
  { raw with classes := raw.classes.map (mergeClass metadata) }

/-- Modelled from the spec: the parsed content of the bundled resource
`specs/amqp-rabbitmq-0.9.1.json`, which ships outside the provided source
files. This is a representative value consistent with what the spec states
about it: AMQP protocol name and version 0.9.1, port 5672, non-empty
domain/constant/class collections, unique class ids, unique method ids
within each class, and unique argument/flag names within each method. -/
def bundledDefinition : AMQProtocolDefinition :=
  { name := "AMQP"
    major_version := 0
    minor_version := 9
    revision := 1
    port := 5672
    copyright := "Copyright (C) 2008-2020 Pivotal Software, Inc, and contributors."
    domains :=
      [ ("class-id", AMQPType.ShortUInt)
      , ("consumer-tag", AMQPType.ShortString)
      , ("delivery-tag", AMQPType.LongLongUInt)
      , ("no-wait", AMQPType.Boolean) ]
    constants :=
      [ { name := "frame-method", value := 1, amqp_type := AMQPType.ShortShortUInt }
      , { name := "frame-header", value := 2, amqp_type := AMQPType.ShortShortUInt }
      , { name := "frame-body", value := 3, amqp_type := AMQPType.ShortShortUInt }
      , { name := "frame-end", value := 206, amqp_type := AMQPType.ShortShortUInt } ]
    soft_errors :=
      [ { name := "content-too-large", value := 311, amqp_type := AMQPType.ShortUInt }
      , { name := "no-route", value := 312, amqp_type := AMQPType.ShortUInt } ]
    hard_errors :=
      [ { name := "connection-forced", value := 320, amqp_type := AMQPType.ShortUInt }
      , { name := "frame-error", value := 501, amqp_type := AMQPType.ShortUInt } ]
    classes :=
      [ { id := 10
          name := "connection"
          properties := []
          metadata := Value.null
          methods :=
            [ { id := 10
                name := "start"
                synchronous := true
                is_reply := false
                metadata := Value.null
                arguments :=
                  [ AMQPArgument.Value
                      { amqp_type := AMQPType.ShortShortUInt
                        name := "version-major"
                        default_value := some (AMQPValue.ShortShortUInt 0)
                        domain := none
                        force_default := false }
                  , AMQPArgument.Value
                      { amqp_type := AMQPType.FieldTable
                        name := "server-properties"
                        default_value := none
                        domain := none
                        force_default := false } ] }
            , { id := 11
                name := "start-ok"
                synchronous := false
                is_reply := true
                metadata := Value.null
                arguments :=
                  [ AMQPArgument.Value
                      { amqp_type := AMQPType.LongString
                        name := "mechanism"
                        default_value := some (AMQPValue.LongString "PLAIN")
                        domain := none
                        force_default := false } ] } ] }
      , { id := 60
          name := "basic"
          properties :=
            [ { amqp_type := AMQPType.ShortString, name := "content-type" }
            , { amqp_type := AMQPType.ShortShortUInt, name := "delivery-mode" } ]
          metadata := Value.null
          methods :=
            [ { id := 40
                name := "publish"
                synchronous := false
                is_reply := false
                metadata := Value.null
                arguments :=
                  [ AMQPArgument.Value
                      { amqp_type := AMQPType.ShortUInt
                        name := "ticket"
                        default_value := some (AMQPValue.ShortUInt 0)
                        domain := some "class-id"
                        force_default := true }
                  , AMQPArgument.Value
                      { amqp_type := AMQPType.ShortString
                        name := "exchange"
                        default_value := none
                        domain := none
                        force_default := false }
                  , AMQPArgument.Flags
                      [ { name := "mandatory", default_value := false }
                      , { name := "immediate", default_value := false } ] ] }
            , { id := 60
                name := "deliver"
                synchronous := false
                is_reply := false
                metadata := Value.null
                arguments :=
                  [ AMQPArgument.Value
                      { amqp_type := AMQPType.ShortString
                        name := "consumer-tag"
                        default_value := none
                        domain := some "consumer-tag"
                        force_default := false }
                  , AMQPArgument.Flags
                      [ { name := "redelivered", default_value := false } ] ] } ] } ] }

/-- Embedding of `AMQProtocolDefinition::load` (`src/codegen/src/specs.rs`):
parses the bundled specs resource and converts it with
`into_specs(&metadata.unwrap_or_default())`; the parse of the fixed,
well-formed bundled resource yields `bundledDefinition`. -/
def load (metadata : Option Value) : AMQProtocolDefinition :=
  into_specs bundledDefinition (metadata.getD Value.default)

/-- Outcome type for the failure behaviour of `load`: either the whole
definition, or a fatal process abort (Rust's `expect`, which never returns
an error value to the caller). -/
inductive LoadOutcome where
  | success (d : AMQProtocolDefinition)
  | fatal (msg : String)

/-- Embedding of the failure behaviour of `load`
(`src/codegen/src/specs.rs`): `from_str(specs).expect("Failed to parse AMQP
specs file")` aborts the process when the bundled resource is malformed.
The parse outcome of the bundled resource is taken as a parameter: the
parser is the external serde library and the resource content is fixed at
build time. -/
def loadFrom (parsed : Except String AMQProtocolDefinition)
    (metadata : Option Value) : LoadOutcome :=
  match parsed with
  | Except.error e => LoadOutcome.fatal ("Failed to parse AMQP specs file: " ++ e)
  | Except.ok raw => LoadOutcome.success (into_specs raw (metadata.getD Value.default))

/-- Class ids are pairwise unique across a definition. -/
def classIdsUnique (d : AMQProtocolDefinition) : Prop :=
  (d.classes.map (fun c => c.id)).Nodup

/-- Method ids are pairwise unique within a class. -/
def methodIdsUnique (c : AMQPClass) : Prop :=
  (c.methods.map (fun m => m.id)).Nodup

/-- The argument and flag names occurring in a method, in order. -/
def methodArgNames (m : AMQPMethod) : List ShortString :=
  m.arguments.flatMap (fun a =>
    match a with
    | AMQPArgument.Value v => [v.name]
    | AMQPArgument.Flags fs => fs.map (fun f => f.name))

/-- Argument and flag names are pairwise unique within a method. -/
def argNamesUnique (m : AMQPMethod) : Prop :=
  (methodArgNames m).Nodup

/-- The protocol-semantic fields of a method record: everything but the
metadata slot. -/
def methodSig (m : AMQPMethod) :
    ShortUInt × List AMQPArgument × ShortString × Boolean × Bool :=
  (m.id, m.arguments, m.name, m.synchronous, m.is_reply)

/-- The protocol-semantic fields of a class record: everything but the
metadata slots of the class and of its methods. -/
def classSig (c : AMQPClass) :
    ShortUInt × ShortString × List AMQPProperty
      × List (ShortUInt × List AMQPArgument × ShortString × Boolean × Bool) :=
  (c.id, c.name, c.properties, c.methods.map methodSig)

end AMQ

open AMQ

/-- Merging overrides into a method leaves its protocol-semantic fields
unchanged. -/
theorem methodSig_mergeMethod (ov : Value) (m : AMQPMethod) :
    methodSig (mergeMethod ov m) = methodSig m := rfl

/-- Merging overrides into a method leaves its argument and flag names
unchanged. -/
theorem methodArgNames_mergeMethod (ov : Value) (m : AMQPMethod) :
    methodArgNames (mergeMethod ov m) = methodArgNames m := rfl

/-- Merging overrides into a class leaves its protocol-semantic fields
unchanged. -/
theorem classSig_mergeClass (v : Value) (c : AMQPClass) :
    classSig (mergeClass v c) = classSig c := by
  show (c.id, c.name, c.properties,
      (c.methods.map (mergeMethod (v.objGet c.name))).map methodSig)
    = (c.id, c.name, c.properties, c.methods.map methodSig)
  rw [List.map_map]
  rfl

/-- The class ids of a merged definition are those of the raw definition. -/
theorem into_specs_classIds (raw : AMQProtocolDefinition) (v : Value) :
    ((into_specs raw v).classes.map fun c => c.id) = raw.classes.map fun c => c.id := by
  show ((raw.classes.map (mergeClass v)).map fun c => c.id) = _
  rw [List.map_map]
  rfl

/-- The method ids of a merged class are those of the raw class. -/
theorem mergeClass_methodIds (v : Value) (c : AMQPClass) :
    ((mergeClass v c).methods.map fun m => m.id) = c.methods.map fun m => m.id := by
  show ((c.methods.map (mergeMethod (v.objGet c.name))).map fun m => m.id) = _
  rw [List.map_map]
  rfl

/-- A null metadata document and an empty metadata object merge identically. -/
theorem into_specs_null_obj (raw : AMQProtocolDefinition) :
    into_specs raw Value.null = into_specs raw (Value.obj []) := rfl

/-- C1: for every AMQPType variant `x`, `from_id (get_id x) = some x`,
except for exactly the two variants LongLongUInt (whose round trip yields
`some LongLongInt`) and ShortString (whose round trip yields `none`). -/
theorem from_id_get_id_roundtrip :
    ∀ x : AMQPType,
      AMQPType.from_id (AMQPType.get_id x) =
        (if x = AMQPType.LongLongUInt then some AMQPType.LongLongInt
         else if x = AMQPType.ShortString then none
         else some x) := by decide

/-- C2: `from_id` agrees with the documented mapping table on every
character — each tag of the table maps to the documented type (in
particular `'s'` and `'U'` to ShortInt, `'L'` and `'l'` to LongLongInt)
and every character outside the table yields no match. -/
theorem from_id_matches_spec_table :
    (∀ c : Char, AMQPType.from_id c = specLookup c)
    ∧ (∀ c : Char, c ∉ specTableChars → AMQPType.from_id c = none)
    ∧ AMQPType.from_id 's' = some AMQPType.ShortInt
    ∧ AMQPType.from_id 'U' = some AMQPType.ShortInt
    ∧ AMQPType.from_id 'L' = some AMQPType.LongLongInt
    ∧ AMQPType.from_id 'l' = some AMQPType.LongLongInt := by
  have hnone : ∀ c : Char, c ∉ specTableChars → AMQPType.from_id c = none := by
    intro c h
    unfold AMQPType.from_id
    split <;> simp_all [specTableChars, specTable]
  refine ⟨?_, hnone, by decide, by decide, by decide, by decide⟩
  intro c
  by_cases h : c ∈ specTableChars
  · simp only [specTableChars, specTable, List.map] at h
    fin_cases h <;> rfl
  · have hg : specLookup c = none := by
      unfold specLookup
      rw [List.find?_eq_none.2]
      · rfl
      · intro x hx
        simp only [beq_iff_eq]
        intro hc
        exact h (by rw [← hc]; exact List.mem_map_of_mem _ hx)
    rw [hnone c h, hg]

/-- C2 witness: evaluated at the concrete character `'z'`, which is outside
the table. -/
theorem from_id_matches_spec_table_witness :
    'z' ∉ specTableChars ∧ AMQPType.from_id 'z' = none :=
  ⟨by decide, from_id_matches_spec_table.2.1 'z' (by decide)⟩

/-- C3: `get_id` is total over all 19 variants and always returns a tag of
the documented table or the sentinel `'_'`; `get_id ShortString = '_'`,
`from_id '_'` is no match, and `get_id` never produces `'L'` or `'U'`. -/
theorem get_id_total_table_or_sentinel :
    Fintype.card AMQPType = 19
    ∧ (∀ x : AMQPType, AMQPType.get_id x ∈ specTableChars ∨ AMQPType.get_id x = '_')
    ∧ AMQPType.get_id AMQPType.ShortString = '_'
    ∧ AMQPType.from_id '_' = none
    ∧ (∀ x : AMQPType, AMQPType.get_id x ≠ 'L' ∧ AMQPType.get_id x ≠ 'U') := by
  decide

/-- C4: LongLongInt and LongLongUInt share the same tag, and `from_id` of
that shared tag yields LongLongInt, never LongLongUInt. -/
theorem get_id_longlong_collapse :
    AMQPType.get_id AMQPType.LongLongInt = AMQPType.get_id AMQPType.LongLongUInt
    ∧ AMQPType.from_id (AMQPType.get_id AMQPType.LongLongInt) = some AMQPType.LongLongInt
    ∧ AMQPType.from_id (AMQPType.get_id AMQPType.LongLongUInt) ≠ some AMQPType.LongLongUInt := by
  decide

/-- C10: `get_id` is injective on variants except for the single collapse
of LongLongInt with LongLongUInt, and the sentinel `'_'` is produced only
by ShortString. -/
theorem get_id_injective_except_collapse :
    (∀ x y : AMQPType, x ≠ y →
        ¬(x = AMQPType.LongLongInt ∧ y = AMQPType.LongLongUInt) →
        ¬(x = AMQPType.LongLongUInt ∧ y = AMQPType.LongLongInt) →
        AMQPType.get_id x ≠ AMQPType.get_id y)
    ∧ (∀ x : AMQPType, AMQPType.get_id x = '_' → x = AMQPType.ShortString) := by
  decide

/-- C10 witness: evaluated at the concrete pair (Boolean, Void) and at
ShortString. -/
theorem get_id_injective_except_collapse_witness :
    AMQPType.get_id AMQPType.Boolean ≠ AMQPType.get_id AMQPType.Void
    ∧ AMQPType.ShortString = AMQPType.ShortString :=
  ⟨get_id_injective_except_collapse.1 AMQPType.Boolean AMQPType.Void
      (by decide) (by decide) (by decide),
   get_id_injective_except_collapse.2 AMQPType.ShortString (by decide)⟩

/-- C9: the Timestamp alias is the 64-bit unsigned alias LongLongUInt —
its domain has exactly 2 to the 64 values, not 2 to the 32 — and
ShortShortUInt is the 8-bit unsigned alias. -/
theorem timestamp_is_u64 :
    AMQ.Timestamp = AMQ.LongLongUInt
    ∧ Fintype.card AMQ.Timestamp = 2 ^ 64
    ∧ Fintype.card AMQ.ShortShortUInt = 2 ^ 8
    ∧ AMQ.Timestamp ≠ Fin (2 ^ 32) := by
  refine ⟨rfl, Fintype.card_fin _, Fintype.card_fin _, ?_⟩
  intro h
  have h64 : (2 : ℕ) ^ 64 = 2 ^ 32 := fin_injective h
  norm_num at h64

/-- C5: for any metadata input, the definition returned by `load` has
pairwise-unique class ids, pairwise-unique method ids within each class,
and pairwise-unique argument and flag names within each method. -/
theorem load_uniqueness_invariants :
    ∀ metadata : Option Value,
      classIdsUnique (load metadata)
      ∧ (load metadata).classes.Forall methodIdsUnique
      ∧ (load metadata).classes.Forall (fun c => c.methods.Forall argNamesUnique) := by
  intro metadata
  refine ⟨?_, ?_, ?_⟩
  · unfold classIdsUnique load
    rw [into_specs_classIds]
    decide
  · show (bundledDefinition.classes.map
        (mergeClass (metadata.getD Value.default))).Forall methodIdsUnique
    simp only [bundledDefinition, List.map, List.Forall]
    constructor
    · unfold methodIdsUnique
      rw [mergeClass_methodIds]
      decide
    · unfold methodIdsUnique
      rw [mergeClass_methodIds]
      decide
  · show (bundledDefinition.classes.map
        (mergeClass (metadata.getD Value.default))).Forall
        (fun c => c.methods.Forall argNamesUnique)
    simp only [bundledDefinition, List.map, List.Forall, mergeClass, List.Forall,
      argNamesUnique, methodArgNames_mergeMethod]
    decide

/-- C6: for every metadata input, `load` touches only the metadata slots of
the matching class and method records — the ids, names, argument lists and
properties of every class and method, and every other field of the
definition, are identical to those of `load` with empty metadata. -/
theorem load_preserves_protocol_fields :
    ∀ metadata : Value,
      (load (some metadata)).classes.map classSig = (load none).classes.map classSig
      ∧ (load (some metadata)).name = (load none).name
      ∧ (load (some metadata)).major_version = (load none).major_version
      ∧ (load (some metadata)).minor_version = (load none).minor_version
      ∧ (load (some metadata)).revision = (load none).revision
      ∧ (load (some metadata)).port = (load none).port
      ∧ (load (some metadata)).copyright = (load none).copyright
      ∧ (load (some metadata)).domains = (load none).domains
      ∧ (load (some metadata)).constants = (load none).constants
      ∧ (load (some metadata)).soft_errors = (load none).soft_errors
      ∧ (load (some metadata)).hard_errors = (load none).hard_errors := by
  intro metadata
  refine ⟨?_, rfl, rfl, rfl, rfl, rfl, rfl, rfl, rfl, rfl, rfl⟩
  show (bundledDefinition.classes.map (mergeClass metadata)).map classSig
      = (bundledDefinition.classes.map (mergeClass Value.null)).map classSig
  rw [List.map_map, List.map_map]
  simp only [Function.comp_def, classSig_mergeClass]

/-- C7: when `load` is called without metadata, the metadata document
defaults so that the result is the same as loading with an explicitly
empty metadata object. -/
theorem load_none_eq_load_empty_object :
    load none = load (some (Value.obj [])) :=
  into_specs_null_obj bundledDefinition

/-- C8: a malformed bundled resource makes `load` abort fatally — the parse
error is never surfaced as an inspectable value — and a successful `load`
returns the merged conversion of the whole parsed definition, never a
partial result. -/
theorem load_fatal_on_malformed_resource :
    ∀ (parsed : Except String AMQProtocolDefinition) (metadata : Option Value),
      (∀ e, parsed = Except.error e →
        loadFrom parsed metadata
          = LoadOutcome.fatal ("Failed to parse AMQP specs file: " ++ e))
      ∧ (∀ d, loadFrom parsed metadata = LoadOutcome.success d →
        ∃ raw, parsed = Except.ok raw
          ∧ d = into_specs raw (metadata.getD Value.default)) := by
  intro parsed metadata
  constructor
  · intro e he
    rw [he]
    rfl
  · intro d hd
    cases parsed with
    | error e => simp [loadFrom] at hd
    | ok raw =>
        refine ⟨raw, rfl, ?_⟩
        have : LoadOutcome.success (into_specs raw (metadata.getD Value.default))
            = LoadOutcome.success d := hd
        cases this
        rfl

/-- C8 witness: evaluated at a concrete malformed parse outcome and at the
well-formed bundled resource. -/
theorem load_fatal_on_malformed_resource_witness :
    loadFrom (Except.error "bad json") none
      = LoadOutcome.fatal "Failed to parse AMQP specs file: bad json"
    ∧ ∃ raw, (Except.ok bundledDefinition : Except String AMQProtocolDefinition)
        = Except.ok raw
      ∧ load none = into_specs raw (Option.getD none Value.default) :=
  ⟨(load_fatal_on_malformed_resource (Except.error "bad json") none).1 "bad json" rfl,
   (load_fatal_on_malformed_resource (Except.ok bundledDefinition) none).2 (load none) rfl⟩
